import Mathlib

/-!
Shallow embedding of the durable priority task queue of this repository
(`queue_service.py`, `queue_http_api.py`, `queue_worker.py`, `queue_processor.py`).

Modelling conventions:
* Redis hashes (`queue_tasks`, `queue_completed`, `queue_stats`) are association
  lists `List (String × α)`; `hset`/`hget`/`hincrby` are the corresponding
  assoc-list operations (insert-or-overwrite keeping key order, lookup, counter
  bump).
* The Redis sorted set `queue_priority` is a `List (String × Int)` of
  (member, score) pairs; `zadd` inserts or overwrites a member's score, `zrem`
  removes a member, and `zrevrangeTop` returns the member that `ZREVRANGE 0 0`
  yields: the pair maximal in (score, member) lexicographic order (Redis orders
  equal-score members lexicographically and `ZREVRANGE` reverses).
* Python `datetime` values are abstract ticks (`Nat`); `time.time()` truncated
  to `int` is likewise a `Nat` supplied by the caller.  JSON
  serialisation/deserialisation of a task record is the identity on this
  abstraction (the source round-trips records through `json.dumps`/`json.loads`
  unchanged).
* The opaque structured `result` payload is abstracted as a `String`.
* Python floats used for `progress` only ever store and compare literal
  constants here, so `progress` is modelled as `Rat`.
-/

/-! ## Association-list primitives (Redis hashes and Python dicts) -/

/-- `HSET h k v`: overwrite the value at `k` if present, else append. -/
def hset {α : Type} (l : List (String × α)) (k : String) (v : α) :
    List (String × α) :=
  if l.any (fun p => p.1 == k) then
    l.map (fun p => if p.1 == k then (k, v) else p)
  else
    l ++ [(k, v)]

/-- `HGET h k`: look up the value stored at key `k`. -/
def hget {α : Type} (l : List (String × α)) (k : String) : Option α :=
  (l.find? (fun p => p.1 == k)).map Prod.snd

/-- Delete the entry at key `k` (Python `del d[k]` / absence thereafter). -/
def hdel {α : Type} (l : List (String × α)) (k : String) : List (String × α) :=
  l.filter (fun p => !(p.1 == k))

/-! ## Sorted-set primitives (`queue_priority`) -/

/-- `ZADD z {member: score}`: insert the member or overwrite its score —
on (member, score) pairs this is the same insert-or-overwrite as `HSET`. -/
def zadd (l : List (String × Int)) (member : String) (score : Int) :
    List (String × Int) :=
  hset l member score

/-- `ZREM z member`: remove the member from the sorted set (same removal as
deleting a hash key). -/
def zrem (l : List (String × Int)) (member : String) : List (String × Int) :=
  hdel l member

/-- Redis ranks sorted-set entries by (score, member); `ZREVRANGE` walks that
order downwards, so the head of `ZREVRANGE z 0 0` is the entry maximal in
(score, member) lexicographic order. -/
def zpickMax (a b : String × Int) : String × Int :=
  if a.2 < b.2 ∨ (a.2 = b.2 ∧ a.1 < b.1) then b else a

/-- The full entry returned by `ZREVRANGE z 0 0 WITHSCORES`, if any. -/
def ztop (l : List (String × Int)) : Option (String × Int) :=
  match l with
  | [] => none
  | x :: xs => some (xs.foldl zpickMax x)

/-- The member returned by `ZREVRANGE z 0 0` (queue_service.py line 179). -/
def zrevrangeTop (l : List (String × Int)) : Option String :=
  (ztop l).map Prod.fst

/-! ## Data model (`queue_service.py` lines 36-80) -/

/-- `TaskStatus` enum. -/
inductive TaskStatus where
  | queued
  | processing
  | completed
  | failed
  | cancelled
deriving DecidableEq, Repr

/-- `TaskType` enum. -/
inductive TaskType where
  | transcription
  | risk_detection
deriving DecidableEq, Repr

/-- Variant payload: `TranscriptionTask` carries `file_path`, `filename`,
`language`; `RiskDetectionTask` carries `transcription_id`, `text`. -/
inductive Payload where
  | transcription (file_path filename language : String)
  | risk (transcription_id text : String)
deriving DecidableEq, Repr

/-- A task record as stored in the `queue_tasks` hash (the JSON dict of a
`BaseTask` plus its variant fields). -/
structure TaskRec where
  task_id : String
  task_type : TaskType
  status : TaskStatus := TaskStatus.queued
  created_at : Nat
  started_at : Option Nat := none
  completed_at : Option Nat := none
  result : Option String := none
  error_message : Option String := none
  progress : Rat := 0
  priority : Int := 0
  retry_count : Nat := 0
  max_retries : Nat := 3
  payload : Payload
deriving DecidableEq, Repr

/-- The counters kept in the `queue_stats` hash. -/
structure Counters where
  total_tasks : Int := 0
  queued_tasks : Int := 0
  processing_tasks : Int := 0
  completed_tasks : Int := 0
  failed_tasks : Int := 0
deriving DecidableEq, Repr

/-- The Redis keys owned by the queue service. -/
structure RedisDB where
  queue_tasks : List (String × TaskRec) := []
  queue_priority : List (String × Int) := []
  queue_completed : List (String × TaskRec) := []
  stats : Counters := {}
deriving DecidableEq, Repr

/-- `StandaloneQueueService` state on the Redis-backed path: the shared Redis
keys plus the service-local `processing_tasks` in-flight registry
(id → dequeue timestamp) and the configuration that the claims touch. -/
structure Service where
  db : RedisDB := {}
  processing_tasks : List (String × Nat) := []
  max_processing_time : Nat := 3600
  last_backup_time : Option Nat := none
deriving DecidableEq, Repr

/-- The keyword-argument updates accepted by `update_task_status`; `none`
means the keyword was not passed (call sites never pass Python `None`). -/
structure UpdateFields where
  started_at : Option Nat := none
  completed_at : Option Nat := none
  progress : Option Rat := none
  result : Option String := none
  error_message : Option String := none
deriving DecidableEq, Repr

/-- Merge keyword updates into a record dict
(`for key, value in kwargs.items(): task_dict[key] = value`). -/
def applyUpdates (r : TaskRec) (u : UpdateFields) : TaskRec :=
  { r with
    started_at := match u.started_at with
      | some v => some v
      | none => r.started_at
    completed_at := match u.completed_at with
      | some v => some v
      | none => r.completed_at
    progress := match u.progress with
      | some v => v
      | none => r.progress
    result := match u.result with
      | some v => some v
      | none => r.result
    error_message := match u.error_message with
      | some v => some v
      | none => r.error_message }

/-- The composite ordering score assigned at enqueue
(`score = task.priority * 1000000 + int(time.time())`, line 152). -/
def compositeScore (priority : Int) (now : Nat) : Int :=
  priority * 1000000 + (now : Int)

/-! ## Queue operations, Redis path (`queue_service.py` lines 141-512) -/

/-- `push_task` (lines 141-172, Redis branch): store the record in the
`queue_tasks` hash, add the id to the `queue_priority` sorted set under the
composite score, bump `total_tasks` and `queued_tasks`.  Returns `True`
except on storage errors (not modelled). -/
def push_task (task : TaskRec) (now : Nat) (s : Service) : Bool × Service :=
  let db := s.db
  let db := { db with
    queue_tasks := hset db.queue_tasks task.task_id task
    queue_priority :=
      zadd db.queue_priority task.task_id (compositeScore task.priority now)
    stats := { db.stats with
      total_tasks := db.stats.total_tasks + 1
      queued_tasks := db.stats.queued_tasks + 1 } }
  (true, { s with db := db })

/-- First half of `pop_task` (lines 177-183): `ZREVRANGE queue_priority 0 0`,
a pure read of the shared sorted set returning the candidate id. -/
def pop_read (s : Service) : Option String :=
  zrevrangeTop s.db.queue_priority

/-- Second half of `pop_task` (lines 185-222) for a candidate id: `ZREM` the id
from the index, `HGET` its record (returning `None` if absent), adjust the
counters, record the id in the in-flight registry with the dequeue time, and
return the record (pydantic reconstruction of the task object from the stored
dict is the identity on this abstraction). -/
def pop_finish (task_id : String) (now : Nat) (s : Service) :
    Option TaskRec × Service :=
  let db := { s.db with queue_priority := zrem s.db.queue_priority task_id }
  match hget db.queue_tasks task_id with
  | none => (none, { s with db := db })
  | some rec =>
    let db := { db with
      stats := { db.stats with
        queued_tasks := db.stats.queued_tasks - 1
        processing_tasks := db.stats.processing_tasks + 1 } }
    (some rec,
      { s with
        db := db
        processing_tasks := hset s.processing_tasks task_id now })

/-- `pop_task` (lines 174-226, Redis branch) run without interleaving:
read the top of the priority index, then finish the pop on it. -/
def pop_task (now : Nat) (s : Service) : Option TaskRec × Service :=
  match pop_read s with
  | none => (none, s)
  | some task_id => pop_finish task_id now s

/-- `update_task_status` (lines 228-290, Redis branch): look up the record
(returning `False` when the id is unknown), overwrite its status with the
requested one, merge the keyword updates, write it back; on `COMPLETED` copy
the record into the `queue_completed` hash and adjust counters, on `FAILED`
adjust counters only; finally delete the id from the in-flight registry
unconditionally (lines 281-283 run for every status). -/
def update_task_status (task_id : String) (status : TaskStatus)
    (u : UpdateFields) (s : Service) : Bool × Service :=
  match hget s.db.queue_tasks task_id with
  | none => (false, s)
  | some rec =>
    let rec' := applyUpdates { rec with status := status } u
    let db := { s.db with queue_tasks := hset s.db.queue_tasks task_id rec' }
    let db :=
      match status with
      | TaskStatus.completed => { db with
          stats := { db.stats with
            processing_tasks := db.stats.processing_tasks - 1
            completed_tasks := db.stats.completed_tasks + 1 }
          queue_completed := hset db.queue_completed task_id rec' }
      | TaskStatus.failed => { db with
          stats := { db.stats with
            processing_tasks := db.stats.processing_tasks - 1
            failed_tasks := db.stats.failed_tasks + 1 } }
      | _ => db
    (true,
      { s with
        db := db
        processing_tasks := hdel s.processing_tasks task_id })

/-- `get_task_status` (lines 292-333, Redis branch): check the active
`queue_tasks` hash first, then the `queue_completed` hash. -/
def get_task_status (task_id : String) (s : Service) : Option TaskRec :=
  match hget s.db.queue_tasks task_id with
  | some rec => some rec
  | none => hget s.db.queue_completed task_id

/-- `cleanup_stuck_tasks` (lines 361-377): collect every in-flight id whose
dequeue timestamp is older than `max_processing_time`, then force each to
`FAILED` with a timeout error message. -/
def cleanup_stuck_tasks (now : Nat) (s : Service) : Service :=
  let stuck := (s.processing_tasks.filter
    (fun p => s.max_processing_time < now - p.2)).map Prod.fst
  stuck.foldl
    (fun acc task_id =>
      (update_task_status task_id TaskStatus.failed
        { error_message := some "Task exceeded maximum processing time"
          completed_at := some now } acc).2)
    s

/-- Fuel-bounded iterated dequeue: the sequence of task ids produced by
repeatedly calling `pop_task` (the dequeue time does not influence which task
is returned, so it is fixed at 0). -/
def popIds : Nat → Service → List String
  | 0, _ => []
  | Nat.succ n, s =>
    match pop_task 0 s with
    | (none, _) => []
    | (some rec, s') => rec.task_id :: popIds n s'

/-! ## `cancel_task` HTTP endpoint (`queue_http_api.py` lines 264-290) -/

/-- HTTP error outcomes raised by the cancel endpoint. -/
inductive HttpError where
  | notFound
  | badRequest
  | internalError
deriving DecidableEq, Repr

/-- `DELETE /tasks/{task_id}`: 404 when the id is unknown, 400 when the task
is not `QUEUED`, otherwise update the status to `CANCELLED` with a
cancellation message (the handler finally deletes the uploaded source file of
a transcription task, an external effect outside this model). -/
def cancel_task (task_id : String) (now : Nat) (s : Service) :
    Except HttpError Service :=
  match get_task_status task_id s with
  | none => Except.error HttpError.notFound
  | some task =>
    if task.status ≠ TaskStatus.queued then Except.error HttpError.badRequest
    else
      let (ok, s') := update_task_status task_id TaskStatus.cancelled
        { completed_at := some now
          error_message := some "Task cancelled by user" } s
      if ok then Except.ok s' else Except.error HttpError.internalError

/-! ## Backup and restore (`queue_service.py` lines 379-512, Redis path) -/

/-- Descending (score, member) order used by `ZREVRANGE 0 -1 WITHSCORES`. -/
def zrevGe (a b : String × Int) : Prop :=
  b.2 < a.2 ∨ (a.2 = b.2 ∧ b.1 ≤ a.1)

instance : DecidableRel zrevGe := fun a b => by
  unfold zrevGe
  exact inferInstance

/-- The pickled `backup_data` dict. -/
structure Snapshot where
  queue : List (String × Int)
  tasks : List (String × TaskRec)
  completed : List (String × TaskRec)
  stats : Counters
  timestamp : Nat
  processing_tasks : List (String × Nat)
deriving DecidableEq, Repr

/-- `save_backup` (lines 379-424, Redis branch): export the priority index as
the `(id, score)` pairs of `ZREVRANGE queue_priority 0 -1 WITHSCORES` (sorted
descending by (score, member)), the task and completed hashes verbatim, the
stats and the in-flight registry; write the pickle (always succeeds in this
model) and set `last_backup_time`. -/
def save_backup (now : Nat) (s : Service) : Snapshot × Service :=
  let snap : Snapshot :=
    { queue := List.insertionSort zrevGe s.db.queue_priority
      tasks := s.db.queue_tasks
      completed := s.db.queue_completed
      stats := s.db.stats
      timestamp := now
      processing_tasks := s.processing_tasks }
  (snap, { s with last_backup_time := some now })

/-- `load_backup` (lines 426-512, Redis branch): with no snapshot file return
`False`; otherwise delete the four Redis keys, re-`ZADD` every saved
`(id, score)` pair with its original score, re-`HSET` every task and completed
record, restore the counters, and replace the in-flight registry when the
saved one is non-empty (`if backup_data.get('processing_tasks')` is falsy for
an empty dict, leaving the current registry).  The snapshot file is then
deleted (an external effect).  The saved `(priority, timestamp, task_id)`
legacy triple format is not modelled: `save_backup` above only ever emits
pairs. -/
def load_backup (file : Option Snapshot) (s : Service) : Bool × Service :=
  match file with
  | none => (false, s)
  | some snap =>
    let db : RedisDB :=
      { queue_tasks := snap.tasks.foldl (fun acc p => hset acc p.1 p.2) []
        queue_priority := snap.queue.foldl (fun acc p => zadd acc p.1 p.2) []
        queue_completed :=
          snap.completed.foldl (fun acc p => hset acc p.1 p.2) []
        stats := snap.stats }
    (true,
      { s with
        db := db
        processing_tasks :=
          if snap.processing_tasks.isEmpty then s.processing_tasks
          else snap.processing_tasks })

/-! ## In-memory fallback path (`queue_service.py` lines 158-165, 200-210)

When Redis is unavailable the service keeps `memory_queue`, a list of
`(priority, enqueue time, task_id)` triples re-sorted on every push by the key
`(-priority, time)` (comment in the source: "Sort by priority (desc), then
time (asc)"), and pops from the front. -/

/-- The ascending `(-priority, time)` key order used by
`self.memory_queue.sort(key=lambda x: (-x[0], x[1]))`.  Python's sort is
stable; `List.insertionSort` with this reflexive total order is likewise
stable, and the theorems below only use entries with distinct keys. -/
def memKeyLe (a b : Int × Nat × String) : Prop :=
  b.1 < a.1 ∨ (a.1 = b.1 ∧ a.2.1 ≤ b.2.1)

instance : DecidableRel memKeyLe := fun a b => by
  unfold memKeyLe
  exact inferInstance

/-- In-memory fallback state (`memory_queue`, `memory_tasks`,
`memory_completed`, the stats object and the shared in-flight registry). -/
structure MemService where
  memory_queue : List (Int × Nat × String) := []
  memory_tasks : List (String × TaskRec) := []
  memory_completed : List (String × TaskRec) := []
  stats : Counters := {}
  processing_tasks : List (String × Nat) := []
deriving DecidableEq, Repr

/-- `push_task`, in-memory branch: record the task, append
`(priority, time, id)` to `memory_queue` and re-sort it by `(-priority, time)`,
bump the counters. -/
def push_task_mem (task : TaskRec) (now : Nat) (m : MemService) :
    Bool × MemService :=
  (true,
    { m with
      memory_tasks := hset m.memory_tasks task.task_id task
      memory_queue := List.insertionSort memKeyLe
        (m.memory_queue ++ [(task.priority, now, task.task_id)])
      stats := { m.stats with
        total_tasks := m.stats.total_tasks + 1
        queued_tasks := m.stats.queued_tasks + 1 } })

/-- `pop_task`, in-memory branch: `memory_queue.pop(0)` takes the front
triple; its record is copied out of `memory_tasks` (a missing record raises
`KeyError`, caught as a `None` return), the counters are adjusted and the id
enters the in-flight registry. -/
def pop_task_mem (now : Nat) (m : MemService) :
    Option TaskRec × MemService :=
  match m.memory_queue with
  | [] => (none, m)
  | (_, _, task_id) :: rest =>
    match hget m.memory_tasks task_id with
    | none => (none, m)
    | some rec =>
      (some rec,
        { m with
          memory_queue := rest
          stats := { m.stats with
            queued_tasks := m.stats.queued_tasks - 1
            processing_tasks := m.stats.processing_tasks + 1 }
          processing_tasks := hset m.processing_tasks task_id now })

/-- Fuel-bounded iterated dequeue on the in-memory path. -/
def popIdsMem : Nat → MemService → List String
  | 0, _ => []
  | Nat.succ n, m =>
    match pop_task_mem 0 m with
    | (none, _) => []
    | (some rec, m') => rec.task_id :: popIdsMem n m'

/-! ## String machinery for verdict extraction (`queue_worker.py` 69-104)

Python strings are modelled as their code-point lists.  `str.lower()` is
modelled code-point-wise by `Char.toLower`, which agrees with Python on ASCII
and on Thai (Thai has no case); the keyword tests and the claims' inputs use
only those alphabets. -/

/-- `str.lower()`, code-point-wise. -/
def pyLower (s : String) : List Char :=
  s.data.map Char.toLower

/-- `str.strip()`: drop leading and trailing whitespace. -/
def pyStrip (l : List Char) : List Char :=
  ((l.dropWhile Char.isWhitespace).reverse.dropWhile Char.isWhitespace).reverse

/-- Python's substring test `pat in s`. -/
def listContains (l pat : List Char) : Bool :=
  match l with
  | [] => pat.isEmpty
  | c :: t => pat.isPrefixOf (c :: t) || listContains t pat

/-- The suffix following the first occurrence of `pat`, if `pat` occurs
(`re.search` finds the leftmost match). -/
def afterFirst (l pat : List Char) : Option (List Char) :=
  match l with
  | [] => if pat.isEmpty then some [] else none
  | c :: t =>
    if pat.isPrefixOf (c :: t) then some ((c :: t).drop pat.length)
    else afterFirst t pat

/-- The text the think-block rule examines: for the regex
`<think>[\s\S]*?</think>\s*([\s\S]*?)$` (searched case-insensitively, group
stripped and lowered), this is the stripped text after the first `</think>`
that follows the first `<think>`; `none` when no complete think block
exists. -/
def afterThinkText (lowered : List Char) : Option (List Char) :=
  match afterFirst lowered "<think>".data with
  | none => none
  | some rest =>
    match afterFirst rest "</think>".data with
    | none => none
    | some tail => some (pyStrip tail)

/-- A boxed-answer match starting exactly at `l`: the literal `boxed`
(the leading `\\?` of the regex makes a preceding backslash optional, so the
position of `boxed` alone decides a match), optional whitespace, an opening
brace, at least one non-closing-brace character before a closing brace.
Returns the stripped delimited content. -/
def boxedHere (l : List Char) : Option (List Char) :=
  if "boxed".data.isPrefixOf l then
    let rest := (l.drop 5).dropWhile Char.isWhitespace
    match rest with
    | [] => none
    | c :: t =>
      if c = '\x7b' then
        let content := t.takeWhile (fun d => !(d = '\x7d'))
        if t.any (fun d => d = '\x7d') && !content.isEmpty then
          some (pyStrip content)
        else none
      else none
  else none

/-- Leftmost boxed-answer content in the (lowered) response, if any
(`re.search(r'\\?boxed\s*\{\s*([^}]+)\s*\}', response, re.IGNORECASE)`
followed by `.group(1).strip().lower()`). -/
def boxedContent (l : List Char) : Option (List Char) :=
  match l with
  | [] => none
  | _ :: t =>
    match boxedHere l with
    | some content => some content
    | none => boxedContent t

/-- Rules 2-5 of `extract_risk_result`, which all examine `lower_response`
(lines 83-104): direct Thai keywords, then the boxed answer, then generic
yes/no tokens, else the undetermined sentinel. -/
def extractFromLower (lowered : List Char) : String :=
  if listContains lowered "เข้าข่ายผิด".data ||
      listContains lowered "ผิดกฎหมาย".data then "เข้าข่ายผิด"
  else if listContains lowered "ไม่ผิด".data ||
      listContains lowered "ไม่เข้าข่าย".data ||
      listContains lowered "ไม่มีความเสี่ยง".data then "ไม่ผิด"
  else
    match boxedContent lowered with
    | some content =>
      if listContains content "ใช่".data || listContains content "yes".data ||
          listContains content "เข้าข่าย".data then "เข้าข่ายผิด"
      else if listContains content "ไม่ใช่".data ||
          listContains content "no".data ||
          listContains content "ไม่เข้าข่าย".data then "ไม่ผิด"
      else if listContains lowered "ใช่".data ||
          listContains lowered "yes".data then "เข้าข่ายผิด"
      else if listContains lowered "ไม่ใช่".data ||
          listContains lowered "no".data then "ไม่ผิด"
      else "ไม่สามารถวิเคราะห์ได้"
    | none =>
      if listContains lowered "ใช่".data ||
          listContains lowered "yes".data then "เข้าข่ายผิด"
      else if listContains lowered "ไม่ใช่".data ||
          listContains lowered "no".data then "ไม่ผิด"
      else "ไม่สามารถวิเคราะห์ได้"

/-- `RiskDetectionProcessor.extract_risk_result` (lines 69-104): rule 1
examines only the stripped text after a complete think block — a violation
keyword there yields `'เข้าข่ายผิด'`, a non-violation keyword `'ไม่ผิด'` —
and every other case falls through to the ordered checks on the whole
lowered response. -/
def extract_risk_result (response : String) : String :=
  let lowered := pyLower response
  match afterThinkText lowered with
  | some after_think =>
    if listContains after_think "เข้าข่ายผิด".data ||
        listContains after_think "ผิดกฎหมาย".data then "เข้าข่ายผิด"
    else if listContains after_think "ไม่ผิด".data ||
        listContains after_think "ไม่เข้าข่าย".data then "ไม่ผิด"
    else extractFromLower lowered
  | none => extractFromLower lowered

/-! ## StatusBroadcaster (`queue_processor.py` lines 602-656)

`WebSocketManager` keeps `active_connections` (connection id → live WebSocket
channel; the channel object is abstracted away, membership is what matters)
and `task_subscribers` (task id → set of connection ids, a set modelled as a
duplicate-free list).  Whether `send_text` raises for a given connection is
abstracted as a boolean-valued environment `sendOk`. -/

structure WSManager where
  active_connections : List String := []
  task_subscribers : List (String × List String) := []
deriving DecidableEq, Repr

/-- `disconnect` (lines 615-624): drop the connection from
`active_connections` and discard it from every task's subscriber set. -/
def wsDisconnect (m : WSManager) (connection_id : String) : WSManager :=
  { active_connections :=
      m.active_connections.filter (fun c => !(c == connection_id))
    task_subscribers :=
      m.task_subscribers.map
        (fun p => (p.1, p.2.filter (fun c => !(c == connection_id)))) }

/-- `broadcast_task_update` (lines 633-656): no-op when the task has no
subscriber entry; otherwise send the update to every subscribed connection
that is active, collecting the connections whose send raised, and finally
disconnect each of those.  Returns the list of connections that received the
event together with the new manager state. -/
def broadcast_task_update (m : WSManager) (task_id : String)
    (sendOk : String → Bool) : List String × WSManager :=
  match hget m.task_subscribers task_id with
  | none => ([], m)
  | some subscribers =>
    let attempted :=
      subscribers.filter (fun c => m.active_connections.contains c)
    let delivered := attempted.filter (fun c => sendOk c)
    let disconnected := attempted.filter (fun c => !(sendOk c))
    (delivered, disconnected.foldl wsDisconnect m)

/-! ## Two concurrent `pop_task` callers (claim C1)

`pop_task` issues `ZREVRANGE` (the read) and `ZREM`/`HGET`/`HINCRBY` (the
finish) as separate Redis commands with no transaction, so two worker
processes sharing the store may interleave at the read/finish boundary (the
finish itself is several commands, so even more interleavings exist; one bad
coarse interleaving suffices).  A caller is a small state machine over the
shared service. -/

inductive CallerPhase where
  | ready
  | readDone (candidate : Option String)
  | finished (res : Option TaskRec)
deriving DecidableEq, Repr

/-- One atomic step of a `pop_task` caller against the shared service. -/
def callerStep (now : Nat) (p : CallerPhase) (s : Service) :
    CallerPhase × Service :=
  match p with
  | CallerPhase.ready => (CallerPhase.readDone (pop_read s), s)
  | CallerPhase.readDone none => (CallerPhase.finished none, s)
  | CallerPhase.readDone (some tid) =>
    let (r, s') := pop_finish tid now s
    (CallerPhase.finished r, s')
  | CallerPhase.finished r => (CallerPhase.finished r, s)

/-- Configuration of two concurrent callers over the shared service. -/
structure TwoCallers where
  c1 : CallerPhase
  c2 : CallerPhase
  shared : Service
deriving DecidableEq, Repr

/-- Run one scheduled step: `true` steps caller 1, `false` steps caller 2. -/
def schedStep (now1 now2 : Nat) (st : TwoCallers) (pickFirst : Bool) :
    TwoCallers :=
  if pickFirst then
    let (p, s) := callerStep now1 st.c1 st.shared
    { st with c1 := p, shared := s }
  else
    let (p, s) := callerStep now2 st.c2 st.shared
    { st with c2 := p, shared := s }

/-- Run a schedule (a list of caller choices) from an initial configuration. -/
def runSchedule (now1 now2 : Nat) (sched : List Bool) (st : TwoCallers) :
    TwoCallers :=
  sched.foldl (schedStep now1 now2) st

instance {ε α : Type} [DecidableEq ε] [DecidableEq α] :
    DecidableEq (Except ε α) := fun a b =>
  match a, b with
  | Except.error e, Except.error f =>
    if h : e = f then Decidable.isTrue (by rw [h])
    else Decidable.isFalse (fun hh => h (by cases hh; rfl))
  | Except.ok x, Except.ok y =>
    if h : x = y then Decidable.isTrue (by rw [h])
    else Decidable.isFalse (fun hh => h (by cases hh; rfl))
  | Except.error _, Except.ok _ => Decidable.isFalse (fun hh => by cases hh)
  | Except.ok _, Except.error _ => Decidable.isFalse (fun hh => by cases hh)

/-! ## Concrete scenarios -/

/-- A sample transcription task record (status `QUEUED`, as built by the
submission endpoint before `push_task`). -/
def sampleTask (id : String) (prio : Int) : TaskRec :=
  { task_id := id
    task_type := TaskType.transcription
    created_at := 0
    priority := prio
    payload := Payload.transcription "/tmp/audio.mp3" "audio.mp3" "th" }

/-- Store holding exactly the two queued tasks `t1` (priority 1, enqueued at
tick 10, composite score 1000010) and `t2` (priority 0, enqueued at tick 20,
composite score 20). -/
def c1Store : Service :=
  (push_task (sampleTask "t2" 0) 20
    ((push_task (sampleTask "t1" 1) 10 { }).2)).2

/-- Store with `t1` still queued (score 5) and `t2` dequeued and
`PROCESSING` (the worker picked it up at tick 7). -/
def c6Store : Service :=
  (update_task_status "t2" TaskStatus.processing
    { started_at := some 7, progress := some 0.1 }
    ((pop_task 7 ((push_task (sampleTask "t2" 0) 6
      ((push_task (sampleTask "t1" 0) 5 { }).2)).2)).2)).2

/-- The state after successfully cancelling queued task `t1`. -/
def c6Cancelled : Service :=
  ((cancel_task "t1" 8 c6Store).toOption).getD c6Store

/-- Store in which task `t1` has already reached the terminal status
`COMPLETED` (pushed, popped, then completed with `progress=1.0` and a
result, as the worker does). -/
def doneStore : Service :=
  (update_task_status "t1" TaskStatus.completed
    { completed_at := some 7, progress := some 1, result := some "ok" }
    ((pop_task 6 ((push_task (sampleTask "t1" 0) 5 { }).2)).2)).2

/-- The record stored for `t1` in `doneStore`. -/
def doneRec : TaskRec :=
  { sampleTask "t1" 0 with
    status := TaskStatus.completed
    completed_at := some 7
    progress := 1
    result := some "ok" }

/-- Store with `t1` dequeued and in flight (popped at tick 6). -/
def inflightStore : Service :=
  (pop_task 6 ((push_task (sampleTask "t1" 0) 5 { }).2)).2

/-! ## Association-list lemmas -/

theorem hset_cons_ne {α : Type} (p : String × α) (t : List (String × α))
    (k : String) (v : α) (h : ¬ p.1 = k) :
    hset (p :: t) k v = p :: hset t k v := by
  have hb : (p.1 == k) = false := by simp [h]
  by_cases hc : t.any (fun q => q.1 == k)
  · simp [hset, List.any_cons, hb, hc, h]
  · simp [hset, List.any_cons, hb, hc, h]

theorem hget_cons_ne {α : Type} (p : String × α) (t : List (String × α))
    (k : String) (h : ¬ p.1 = k) :
    hget (p :: t) k = hget t k := by
  have hb : (p.1 == k) = false := by simp [h]
  simp [hget, List.find?_cons, hb]

theorem hget_cons_self {α : Type} (k : String) (v : α)
    (t : List (String × α)) :
    hget ((k, v) :: t) k = some v := by
  simp [hget, List.find?_cons]

theorem hget_hset_self {α : Type} (l : List (String × α)) (k : String)
    (v : α) : hget (hset l k v) k = some v := by
  induction l with
  | nil => simp [hget, hset]
  | cons p t ih =>
    by_cases h : p.1 = k
    · have hb : (p.1 == k) = true := by simp [h]
      have hany : ((p :: t).any fun q => q.1 == k) = true := by
        simp [List.any_cons, hb]
      have hmap : hset (p :: t) k v
          = (k, v) :: t.map (fun q => if q.1 == k then (k, v) else q) := by
        simp [hset, hany, List.map_cons, hb, h]
      rw [hmap]
      exact hget_cons_self k v _
    · rw [hset_cons_ne p t k v h, hget_cons_ne p (hset t k v) k h]
      exact ih

theorem hget_hdel_self {α : Type} (l : List (String × α)) (k : String) :
    hget (hdel l k) k = none := by
  induction l with
  | nil => simp [hget, hdel]
  | cons p t ih =>
    by_cases h : p.1 = k
    · have hb : (p.1 == k) = true := by simp [h]
      simpa [hdel, List.filter_cons, hb] using ih
    · have hb : (p.1 == k) = false := by simp [h]
      rw [hdel, List.filter_cons]
      simp only [hb]
      rw [show (t.filter fun p => !(p.1 == k)) = hdel t k from rfl] at *
      simpa [hget_cons_ne p (hdel t k) k h] using ih

theorem hget_map_with_key {α β : Type} (l : List (String × α)) (g : α → β)
    (k : String) :
    hget (l.map (fun p => (p.1, g p.2))) k = (hget l k).map g := by
  induction l with
  | nil => rfl
  | cons p t ih =>
    by_cases h : p.1 = k
    · simp [hget, List.find?_cons, h]
    · have hb : (p.1 == k) = false := by simp [h]
      simpa [hget, List.find?_cons, hb] using ih

/-! ## Substring lemmas -/

theorem listContains_iff_infixOf (l pat : List Char) :
    listContains l pat = true ↔ pat <:+: l := by
  induction l with
  | nil => simp [listContains, List.isEmpty_iff, List.infix_nil]
  | cons c t ih =>
    simp [listContains, List.infix_cons_iff, List.isPrefixOf_iff_prefix, ih]

theorem listContains_mono (l p q : List Char) (hq : q <:+: p)
    (h : listContains l p = true) : listContains l q = true := by
  rw [listContains_iff_infixOf] at h ⊢
  exact hq.trans h

/-! ## Broadcast lemmas -/

theorem foldl_wsDisconnect_active (ds : List String) (m : WSManager)
    (c : String) :
    c ∈ (ds.foldl wsDisconnect m).active_connections ↔
      (c ∈ m.active_connections ∧ ∀ d ∈ ds, ¬ c = d) := by
  induction ds generalizing m with
  | nil => simp
  | cons d t ih =>
    rw [List.foldl_cons, ih]
    constructor
    · rintro ⟨hc, hall⟩
      have hcd : ¬ c = d := by
        intro hcd
        subst hcd
        simp [wsDisconnect, List.mem_filter] at hc
      rw [wsDisconnect] at hc
      simp only [List.mem_filter] at hc
      exact ⟨hc.1, by
        intro e he
        rcases List.mem_cons.mp he with rfl | het
        · exact hcd
        · exact hall e het⟩
    · rintro ⟨hc, hall⟩
      have hcd : ¬ c = d := hall d (List.mem_cons_self d t)
      refine ⟨?_, fun e he => hall e (List.mem_cons_of_mem d he)⟩
      rw [wsDisconnect]
      simp [List.mem_filter, hc, hcd]

theorem foldl_wsDisconnect_subscribers (ds : List String) (m : WSManager)
    (t : String) (subs : List String)
    (h : hget m.task_subscribers t = some subs) :
    ∃ subs', hget (ds.foldl wsDisconnect m).task_subscribers t = some subs' ∧
      ∀ c, c ∈ subs' ↔ (c ∈ subs ∧ ∀ d ∈ ds, ¬ c = d) := by
  induction ds generalizing m subs with
  | nil => exact ⟨subs, h, by simp⟩
  | cons d tl ih =>
    rw [List.foldl_cons]
    have hstep : hget (wsDisconnect m d).task_subscribers t =
        some (subs.filter (fun c => !(c == d))) := by
      rw [wsDisconnect]
      simp only
      rw [hget_map_with_key m.task_subscribers
        (fun l => l.filter (fun c => !(c == d))) t, h]
      rfl
    obtain ⟨subs', h1, h2⟩ := ih (wsDisconnect m d)
      (subs.filter (fun c => !(c == d))) hstep
    refine ⟨subs', h1, fun c => ?_⟩
    rw [h2 c]
    simp only [List.mem_filter, List.mem_cons]
    constructor
    · rintro ⟨⟨hc, hcd⟩, hall⟩
      refine ⟨hc, ?_⟩
      intro e he
      rcases he with rfl | het
      · simpa using hcd
      · exact hall e het
    · rintro ⟨hc, hall⟩
      have hcd : ¬ c = d := hall d (Or.inl rfl)
      exact ⟨⟨hc, by simpa using hcd⟩, fun e he => hall e (Or.inr he)⟩

/-- Claim C1: "At-most-one-dequeue: for a store holding exactly N enqueued
tasks, concurrently invoking dequeue (pop_task) N times yields N distinct task
ids, with no id returned twice and no task left un-dequeued; no two concurrent
callers ever receive the same id for one enqueue."  The code violates this:
`pop_task` issues `ZREVRANGE` and `ZREM` as separate non-transactional Redis
commands, so under the interleaving read₁, read₂, finish₁, finish₂ both
concurrent callers receive task `t1` for its single enqueue and `t2` is never
dequeued. -/
theorem c1_concurrent_dequeue_duplicate :
    (runSchedule 100 101 [true, false, true, false]
      { c1 := CallerPhase.ready, c2 := CallerPhase.ready,
        shared := c1Store }).c1 =
      CallerPhase.finished (some (sampleTask "t1" 1)) ∧
    (runSchedule 100 101 [true, false, true, false]
      { c1 := CallerPhase.ready, c2 := CallerPhase.ready,
        shared := c1Store }).c2 =
      CallerPhase.finished (some (sampleTask "t1" 1)) ∧
    (runSchedule 100 101 [true, false, true, false]
      { c1 := CallerPhase.ready, c2 := CallerPhase.ready,
        shared := c1Store }).shared.db.queue_priority = [("t2", 20)] := by
  decide

/-- Claim C2 evaluation: "Dequeue order: ... strictly by priority descending,
and, among tasks of equal priority, in submission (FIFO) order, as induced by
the composite score priority * LARGE_CONSTANT + submissionTimestamp."  The
Redis path violates both parts: (1) for equal priorities the composite score
grows with the submission time and `ZREVRANGE` pops the *highest* score, so
the later submission `y` is dequeued before the earlier `x` (LIFO, while the
in-memory fallback of the very same functions — sorting by `(-priority,
time)` and popping the front — returns the spec'd FIFO order); (2) a priority
gap only dominates while submission times differ by less than 1,000,000
seconds per priority unit: `b` (priority 0, enqueued 2,000,000 ticks after
`a` of priority 1) is dequeued before `a`. -/
theorem c2_redis_order_not_fifo :
    popIds 2 ((push_task (sampleTask "y" 0) 200
        ((push_task (sampleTask "x" 0) 100 { }).2)).2) = ["y", "x"] ∧
    popIdsMem 2 ((push_task_mem (sampleTask "y" 0) 200
        ((push_task_mem (sampleTask "x" 0) 100 { }).2)).2) = ["x", "y"] ∧
    popIds 2 ((push_task (sampleTask "b" 0) 2000000
        ((push_task (sampleTask "a" 1) 0 { }).2)).2) = ["b", "a"] := by
  decide

/-- Claim C5 evaluation: "every task removed from the priority index by
dequeue is entered into the in-flight registry and stays in that registry
until a terminal status is recorded; in particular, non-terminal status
updates do not remove it."  The code violates the retention half: lines
281-283 of `update_task_status` delete the id from `processing_tasks` for
*every* status, so the worker's first `PROCESSING` progress update (as in
`queue_worker.py` lines 112-120) empties the registry and a subsequent
`cleanup_stuck_tasks` sweep — arbitrarily far in the future — no longer sees
the task, which stays `processing` forever. -/
theorem c5_inflight_entry_lost_on_progress_update :
    (pop_task 10 ((push_task (sampleTask "t1" 0) 5 { }).2)).2.processing_tasks
      = [("t1", 10)] ∧
    (update_task_status "t1" TaskStatus.processing
      { started_at := some 10, progress := some 0.1 }
      (pop_task 10 ((push_task (sampleTask "t1" 0) 5
        { }).2)).2).2.processing_tasks = [] ∧
    (hget (cleanup_stuck_tasks 999999999
      (update_task_status "t1" TaskStatus.processing
        { started_at := some 10, progress := some 0.1 }
        (pop_task 10 ((push_task (sampleTask "t1" 0) 5
          { }).2)).2).2).db.queue_tasks "t1").map
      TaskRec.status = some TaskStatus.processing := by
  decide

/-- Claim C6 evaluation: "cancel on a Processing task is refused ...;
cancelling a Queued task transitions it to Cancelled and removes it from the
priority index, so it can never subsequently be dequeued."  The refusal half
holds (the endpoint raises 400 before mutating anything), but the removal
half is violated: cancelling queued `t1` marks it `CANCELLED` yet leaves
`("t1", 5)` in `queue_priority`, and the very next `pop_task` returns the
cancelled task. -/
theorem c6_cancelled_task_still_dequeued :
    cancel_task "t2" 8 c6Store = Except.error HttpError.badRequest ∧
    (cancel_task "t1" 8 c6Store).toOption.isSome = true ∧
    (hget c6Cancelled.db.queue_tasks "t1").map TaskRec.status =
      some TaskStatus.cancelled ∧
    c6Cancelled.db.queue_priority = [("t1", 5)] ∧
    ((pop_task 9 c6Cancelled).1).map TaskRec.task_id = some "t1" ∧
    ((pop_task 9 c6Cancelled).1).map TaskRec.status =
      some TaskStatus.cancelled := by
  decide

/-- Claim C8: "Verdict extraction follows the ordered-fallback policy ... and
in particular: input `"<think>...</think> เข้าข่ายผิด"` yields Violation,
input `"ไม่ผิด"` yields NoViolation, and input `"blah blah"` yields
Undetermined."  The verdicts Violation / NoViolation / Undetermined are the
strings `'เข้าข่ายผิด'` / `'ไม่ผิด'` / `'ไม่สามารถวิเคราะห์ได้'` returned by
`extract_risk_result`, whose definition realises exactly the ordered fallback
(think-block text, direct keywords, boxed answer, generic yes/no,
undetermined). -/
theorem c8_verdict_extraction_examples :
    extract_risk_result "<think>...</think> เข้าข่ายผิด" = "เข้าข่ายผิด" ∧
    extract_risk_result "ไม่ผิด" = "ไม่ผิด" ∧
    extract_risk_result "blah blah" = "ไม่สามารถวิเคราะห์ได้" := by
  decide

/-- Counterexample to claim C3: `t1` is recorded `COMPLETED` (terminal), yet
a subsequent `update_task_status` back to `PROCESSING` is applied — it
returns `True` and the stored status changes — contradicting "any subsequent
updateStatus call for that id is not applied ... so the stored status never
changes again". -/
theorem c3_terminal_status_overwritten :
    (hget doneStore.db.queue_tasks "t1").map TaskRec.status =
      some TaskStatus.completed ∧
    (update_task_status "t1" TaskStatus.processing
      { started_at := some 8 } doneStore).1 = true ∧
    (hget (update_task_status "t1" TaskStatus.processing
      { started_at := some 8 } doneStore).2.db.queue_tasks "t1").map
        TaskRec.status = some TaskStatus.processing := by
  decide

/-- Claim C3 (amended): `update_task_status` never rejects a status change
for a known id — whatever the current stored status, terminal included, the
call returns `True` and overwrites the stored record with the requested
status and field updates.  Terminal-state protection exists only in callers
(the cancel endpoint's 400 guard); the store itself enforces no state
machine. -/
theorem c3_update_status_unconditional (s : Service) (task_id : String)
    (status : TaskStatus) (u : UpdateFields) (rec : TaskRec)
    (h : hget s.db.queue_tasks task_id = some rec) :
    (update_task_status task_id status u s).1 = true ∧
    hget (update_task_status task_id status u s).2.db.queue_tasks task_id =
      some (applyUpdates { rec with status := status } u) := by
  unfold update_task_status
  rw [h]
  cases status <;> exact ⟨rfl, hget_hset_self _ _ _⟩

/-- Witness for `c3_update_status_unconditional` at the concrete completed
store: updating terminal `t1` back to `PROCESSING` is applied. -/
theorem c3_update_status_unconditional_witness :
    (update_task_status "t1" TaskStatus.processing
      { started_at := some 8 } doneStore).1 = true ∧
    hget (update_task_status "t1" TaskStatus.processing
      { started_at := some 8 } doneStore).2.db.queue_tasks "t1" =
      some (applyUpdates { doneRec with status := TaskStatus.processing }
        { started_at := some 8 }) :=
  c3_update_status_unconditional doneStore "t1" TaskStatus.processing
    { started_at := some 8 } doneRec (by decide)

/-- Counterexample to claim C4: recording the terminal status `FAILED` for
in-flight task `t1` succeeds but does *not* move the record into the
completed set (`queue_completed` stays without the id; only `COMPLETED`
copies the record there, lines 250-254). -/
theorem c4_failed_not_moved_to_completed :
    (update_task_status "t1" TaskStatus.failed
      { error_message := some "boom", completed_at := some 7 }
      inflightStore).1 = true ∧
    hget (update_task_status "t1" TaskStatus.failed
      { error_message := some "boom", completed_at := some 7 }
      inflightStore).2.db.queue_completed "t1" = none := by
  decide

/-- Claim C4 (amended): for a known id, `update_task_status` with a terminal
status always removes the id from the in-flight registry (it does so for
*every* status), but only `COMPLETED` moves the record into the completed
set; `FAILED` and `CANCELLED` leave the completed set untouched.  Unknown
ids yield `False`. -/
theorem c4_terminal_bookkeeping (s : Service) (task_id : String)
    (status : TaskStatus) (u : UpdateFields) (rec : TaskRec)
    (h : hget s.db.queue_tasks task_id = some rec) :
    (update_task_status task_id status u s).1 = true ∧
    hget (update_task_status task_id status u s).2.processing_tasks task_id =
      none ∧
    (status = TaskStatus.completed →
      hget (update_task_status task_id status u s).2.db.queue_completed
        task_id = some (applyUpdates { rec with status := status } u)) ∧
    ((status = TaskStatus.failed ∨ status = TaskStatus.cancelled) →
      (update_task_status task_id status u s).2.db.queue_completed =
        s.db.queue_completed) ∧
    (∀ s' : Service, hget s'.db.queue_tasks task_id = none →
      (update_task_status task_id status u s').1 = false) := by
  unfold update_task_status
  rw [h]
  refine ⟨?_, ?_, ?_, ?_, ?_⟩
  · cases status <;> rfl
  · cases status <;> exact hget_hdel_self _ _
  · intro hst
    subst hst
    exact hget_hset_self _ _ _
  · rintro (hst | hst) <;> subst hst <;> rfl
  · intro s' h'
    rw [h']

/-- `pop_task` on a service whose priority-index top is `tid` and whose task
hash stores `rec` for `tid`: the record is returned, the id leaves the index,
the counters shift from queued to processing and the id enters the in-flight
registry with the dequeue time. -/
theorem pop_task_step (s : Service) (tid : String) (rec : TaskRec)
    (now : Nat) (h1 : pop_read s = some tid)
    (h2 : hget s.db.queue_tasks tid = some rec) :
    pop_task now s = (some rec,
      { s with
        db := { s.db with
          queue_priority := zrem s.db.queue_priority tid
          stats := { s.db.stats with
            queued_tasks := s.db.stats.queued_tasks - 1
            processing_tasks := s.db.stats.processing_tasks + 1 } }
        processing_tasks := hset s.processing_tasks tid now }) := by
  unfold pop_task
  rw [h1]
  show pop_finish tid now s = _
  unfold pop_finish
  dsimp only
  rw [h2]

/-- Claim C7: "Backup round-trip: after enqueuing tasks A (priority 5) and B
(priority 1), calling save (save_backup), constructing a fresh store, and
calling load (load_backup), dequeue yields A then B with task fields equal to
the originals; the restore reinstates each index entry with its original
composite score (not a score derived from restore time), so dequeue order is
preserved across the backup/restore cycle."  Confirmed, for distinct task
ids whenever B is enqueued less than 4,000,000 ticks after A (the margin the
composite scores 5,000,000 + tA and 1,000,000 + tB leave; the claim's
scenario enqueues both within one run): the restored priority index equals
the original one score for score, and the two dequeues return exactly the
original records. -/
theorem c7_backup_roundtrip (recA recB : TaskRec)
    (tA tB tSave now1 now2 : Nat)
    (hid : ¬ recA.task_id = recB.task_id)
    (hpA : recA.priority = 5) (hpB : recB.priority = 1)
    (hwin : (tB : Int) < (tA : Int) + 4000000) :
    let s2 := (push_task recB tB ((push_task recA tA { }).2)).2
    let restored := (load_backup (some (save_backup tSave s2).1) { }).2
    (load_backup (some (save_backup tSave s2).1) { }).1 = true ∧
    restored.db.queue_priority = s2.db.queue_priority ∧
    (pop_task now1 restored).1 = some recA ∧
    (pop_task now2 (pop_task now1 restored).2).1 = some recB := by
  intro s2 restored
  have hab : (recA.task_id == recB.task_id) = false := by simp [hid]
  have hid' : ¬ recB.task_id = recA.task_id := fun h => hid h.symm
  have hba : (recB.task_id == recA.task_id) = false := by simp [hid']
  have hscore : compositeScore recB.priority tB <
      compositeScore recA.priority tA := by
    rw [hpA, hpB]
    unfold compositeScore
    omega
  have ht2 : s2.db.queue_tasks =
      [(recA.task_id, recA), (recB.task_id, recB)] := by
    show hset (hset [] recA.task_id recA) recB.task_id recB = _
    rw [show hset ([] : List (String × TaskRec)) recA.task_id recA
      = [(recA.task_id, recA)] from rfl]
    rw [hset_cons_ne _ _ _ _ hid]
    rfl
  have hq2 : s2.db.queue_priority =
      [(recA.task_id, compositeScore recA.priority tA),
       (recB.task_id, compositeScore recB.priority tB)] := by
    show zadd (zadd [] recA.task_id (compositeScore recA.priority tA))
      recB.task_id (compositeScore recB.priority tB) = _
    rw [zadd, zadd, show hset ([] : List (String × Int)) recA.task_id
      (compositeScore recA.priority tA)
      = [(recA.task_id, compositeScore recA.priority tA)] from rfl]
    rw [hset_cons_ne _ _ _ _ hid]
    rfl
  have hsnapq : (save_backup tSave s2).1.queue =
      [(recA.task_id, compositeScore recA.priority tA),
       (recB.task_id, compositeScore recB.priority tB)] := by
    show List.insertionSort zrevGe s2.db.queue_priority = _
    rw [hq2]
    have hr : zrevGe (recA.task_id, compositeScore recA.priority tA)
        (recB.task_id, compositeScore recB.priority tB) := Or.inl hscore
    simp [List.insertionSort, List.orderedInsert, hr]
  have hrt : restored.db.queue_tasks =
      [(recA.task_id, recA), (recB.task_id, recB)] := by
    show ((save_backup tSave s2).1.tasks).foldl
      (fun acc p => hset acc p.1 p.2) [] = _
    rw [show (save_backup tSave s2).1.tasks = s2.db.queue_tasks from rfl, ht2]
    show hset (hset [] recA.task_id recA) recB.task_id recB = _
    rw [show hset ([] : List (String × TaskRec)) recA.task_id recA
      = [(recA.task_id, recA)] from rfl]
    rw [hset_cons_ne _ _ _ _ hid]
    rfl
  have hrq : restored.db.queue_priority =
      [(recA.task_id, compositeScore recA.priority tA),
       (recB.task_id, compositeScore recB.priority tB)] := by
    show ((save_backup tSave s2).1.queue).foldl
      (fun acc p => zadd acc p.1 p.2) [] = _
    rw [hsnapq]
    show zadd (zadd [] recA.task_id (compositeScore recA.priority tA))
      recB.task_id (compositeScore recB.priority tB) = _
    rw [zadd, zadd, show hset ([] : List (String × Int)) recA.task_id
      (compositeScore recA.priority tA)
      = [(recA.task_id, compositeScore recA.priority tA)] from rfl]
    rw [hset_cons_ne _ _ _ _ hid]
    rfl
  have haa : (recA.task_id == recA.task_id) = true := by simp
  have hbb : (recB.task_id == recB.task_id) = true := by simp
  have hcond : ¬ (compositeScore recA.priority tA <
      compositeScore recB.priority tB ∨
      (compositeScore recA.priority tA = compositeScore recB.priority tB ∧
        recA.task_id < recB.task_id)) := by
    rintro (h | ⟨h, _⟩) <;> omega
  have hread1 : pop_read restored = some recA.task_id := by
    rw [pop_read, hrq]
    show some ((zpickMax (recA.task_id, compositeScore recA.priority tA)
      (recB.task_id, compositeScore recB.priority tB)).1) = _
    unfold zpickMax
    dsimp only
    rw [if_neg hcond]
  have hgetA : hget restored.db.queue_tasks recA.task_id = some recA := by
    rw [hrt]
    exact hget_cons_self _ _ _
  have hpop1 := pop_task_step restored recA.task_id recA now1 hread1 hgetA
  have hq5 : zrem restored.db.queue_priority recA.task_id =
      [(recB.task_id, compositeScore recB.priority tB)] := by
    rw [hrq]
    simp [zrem, hdel, List.filter_cons, haa, hba]
  have hread2 : pop_read (pop_task now1 restored).2 =
      some recB.task_id := by
    rw [hpop1]
    show zrevrangeTop (zrem restored.db.queue_priority recA.task_id) = _
    rw [hq5]
    simp [zrevrangeTop, ztop]
  have hgetB : hget (pop_task now1 restored).2.db.queue_tasks
      recB.task_id = some recB := by
    rw [hpop1]
    show hget restored.db.queue_tasks recB.task_id = _
    rw [hrt, hget_cons_ne _ _ _ hid]
    exact hget_cons_self _ _ _
  have hpop2 := pop_task_step (pop_task now1 restored).2 recB.task_id recB
    now2 hread2 hgetB
  refine ⟨rfl, ?_, ?_, ?_⟩
  · rw [hrq, hq2]
  · rw [hpop1]
  · rw [hpop2]

/-- Witness for `c7_backup_roundtrip`: tasks `a` (priority 5, enqueued at
tick 1000) and `b` (priority 1, enqueued at tick 2000), saved at tick 3000,
restored into a fresh store and popped at ticks 4000 and 5000. -/
theorem c7_backup_roundtrip_witness :
    let s2 := (push_task (sampleTask "b" 1) 2000
      ((push_task (sampleTask "a" 5) 1000 { }).2)).2
    let restored := (load_backup (some (save_backup 3000 s2).1) { }).2
    (load_backup (some (save_backup 3000 s2).1) { }).1 = true ∧
    restored.db.queue_priority = s2.db.queue_priority ∧
    (pop_task 4000 restored).1 = some (sampleTask "a" 5) ∧
    (pop_task 5000 (pop_task 4000 restored).2).1 =
      some (sampleTask "b" 1) :=
  c7_backup_roundtrip (sampleTask "a" 5) (sampleTask "b" 1) 1000 2000 3000
    4000 5000 (by decide) (by decide) (by decide) (by decide)

/-- Claim C9: "Broadcast isolation: for every task id with multiple
subscribed connections, if delivery of a published event to one connection
raises, that connection alone is removed from both the connection registry
and the task's subscriber set, and every other subscribed connection still
receives the event."  Confirmed: with `x` the sole failing subscribed
connection, every other active subscriber is in the delivered list, `x`
leaves both `active_connections` and the task's subscriber set, and no other
connection's registry membership changes. -/
theorem c9_broadcast_isolation (m : WSManager) (task_id x : String)
    (subs : List String) (sendOk : String → Bool)
    (hsubs : hget m.task_subscribers task_id = some subs)
    (hx : x ∈ subs) (hxa : x ∈ m.active_connections)
    (hxfail : sendOk x = false)
    (hothers : ∀ c ∈ subs, ¬ c = x → sendOk c = true) :
    (∀ c ∈ subs, ¬ c = x → c ∈ m.active_connections →
      c ∈ (broadcast_task_update m task_id sendOk).1) ∧
    x ∉ (broadcast_task_update m task_id sendOk).2.active_connections ∧
    (∀ subs', hget (broadcast_task_update m task_id
      sendOk).2.task_subscribers task_id = some subs' → x ∉ subs') ∧
    (∀ c, ¬ c = x →
      (c ∈ (broadcast_task_update m task_id sendOk).2.active_connections ↔
        c ∈ m.active_connections)) := by
  unfold broadcast_task_update
  rw [hsubs]
  dsimp only
  set attempted := subs.filter (fun c => m.active_connections.contains c)
    with hatt
  set ds := attempted.filter (fun c => !(sendOk c)) with hds
  have hds_all : ∀ d ∈ ds, d = x := by
    intro d hd
    rw [hds] at hd
    have h1 := List.mem_filter.mp hd
    have h2 := List.mem_filter.mp h1.1
    by_contra hdx
    have := hothers d h2.1 hdx
    rw [this] at h1
    simp at h1
  have hxds : x ∈ ds := by
    rw [hds, hatt]
    refine List.mem_filter.mpr ⟨List.mem_filter.mpr ⟨hx, ?_⟩, ?_⟩
    · exact List.elem_iff.mpr hxa
    · simp [hxfail]
  refine ⟨?_, ?_, ?_, ?_⟩
  · intro c hc hcx hca
    exact List.mem_filter.mpr
      ⟨List.mem_filter.mpr ⟨hc, List.elem_iff.mpr hca⟩,
        by simp [hothers c hc hcx]⟩
  · intro hmem
    obtain ⟨-, hall⟩ := (foldl_wsDisconnect_active ds m x).mp hmem
    exact hall x hxds rfl
  · intro subs' h'
    obtain ⟨subs'', heq, hmem⟩ :=
      foldl_wsDisconnect_subscribers ds m task_id subs hsubs
    rw [heq] at h'
    cases h'
    intro hxs
    obtain ⟨-, hall⟩ := (hmem x).mp hxs
    exact hall x hxds rfl
  · intro c hcx
    rw [foldl_wsDisconnect_active ds m c]
    constructor
    · exact fun h => h.1
    · intro h
      refine ⟨h, ?_⟩
      intro d hd
      rw [hds_all d hd]
      exact hcx

/-- Witness for `c9_broadcast_isolation`: connections `x` and `y` both
subscribe to task `t`; sending to `x` raises while `y` succeeds — `y` still
receives the event and `x` is disconnected. -/
theorem c9_broadcast_isolation_witness :
    "y" ∈ (broadcast_task_update
      { active_connections := ["x", "y"]
        task_subscribers := [("t", ["x", "y"])] } "t"
      (fun c => c == "y")).1 ∧
    "x" ∉ (broadcast_task_update
      { active_connections := ["x", "y"]
        task_subscribers := [("t", ["x", "y"])] } "t"
      (fun c => c == "y")).2.active_connections := by
  exact ⟨(c9_broadcast_isolation
      { active_connections := ["x", "y"]
        task_subscribers := [("t", ["x", "y"])] } "t" "x" ["x", "y"]
      (fun c => c == "y") (by decide) (by decide) (by decide) (by decide)
      (by decide)).1 "y" (by decide) (by decide) (by decide),
    (c9_broadcast_isolation
      { active_connections := ["x", "y"]
        task_subscribers := [("t", ["x", "y"])] } "t" "x" ["x", "y"]
      (fun c => c == "y") (by decide) (by decide) (by decide) (by decide)
      (by decide)).2.1⟩

/-- Counterexample to claim C10: the response
`"<think>ไม่เข้าข่ายผิด</think>ไม่ผิด"` contains the non-violation wording
`'ไม่เข้าข่ายผิด'`, yet extraction returns `'ไม่ผิด'` (NoViolation), not
Violation: the phrase sits inside the think block, and rule 1 examines only
the text after the block, where `'ไม่ผิด'` matches a non-violation keyword
first. -/
theorem c10_phrase_inside_think_not_violation :
    listContains (pyLower "<think>ไม่เข้าข่ายผิด</think>ไม่ผิด")
      "ไม่เข้าข่ายผิด".data = true ∧
    extract_risk_result "<think>ไม่เข้าข่ายผิด</think>ไม่ผิด" = "ไม่ผิด" := by
  decide

/-- Claim C10 (amended): whenever the phrase `'ไม่เข้าข่ายผิด'` occurs in the
text the extractor examines first — the stripped text after the think block
when a complete block is present, otherwise the whole lowered response — the
verdict is Violation (`'เข้าข่ายผิด'`), because violation-indicating phrases
are tested before non-violation phrases and `'เข้าข่ายผิด'` occurs as a
substring of `'ไม่เข้าข่ายผิด'`. -/
theorem c10_nonviolation_phrase_yields_violation (response : String)
    (h : (afterThinkText (pyLower response) = none ∧
        listContains (pyLower response) "ไม่เข้าข่ายผิด".data = true) ∨
      (∃ t, afterThinkText (pyLower response) = some t ∧
        listContains t "ไม่เข้าข่ายผิด".data = true)) :
    extract_risk_result response = "เข้าข่ายผิด" := by
  have hinf : "เข้าข่ายผิด".data <:+: "ไม่เข้าข่ายผิด".data := by decide
  unfold extract_risk_result
  dsimp only
  rcases h with ⟨hnone, hcont⟩ | ⟨t, hsome, hcont⟩
  · rw [hnone]
    have hv := listContains_mono _ _ _ hinf hcont
    unfold extractFromLower
    simp only [hv, Bool.true_or, if_true]
  · rw [hsome]
    have hv := listContains_mono _ _ _ hinf hcont
    simp only [hv, Bool.true_or, if_true]

/-- Witness for `c10_nonviolation_phrase_yields_violation`: the bare response
`"ไม่เข้าข่ายผิด"` (no think block) is classified as a violation. -/
theorem c10_nonviolation_phrase_witness :
    (afterThinkText (pyLower "ไม่เข้าข่ายผิด") = none ∧
      listContains (pyLower "ไม่เข้าข่ายผิด") "ไม่เข้าข่ายผิด".data = true) ∧
    extract_risk_result "ไม่เข้าข่ายผิด" = "เข้าข่ายผิด" :=
  ⟨⟨by decide, by decide⟩,
    c10_nonviolation_phrase_yields_violation "ไม่เข้าข่ายผิด"
      (Or.inl ⟨by decide, by decide⟩)⟩

/-- Witness for `c4_terminal_bookkeeping` at the concrete in-flight store:
failing `t1` succeeds, clears its in-flight entry, and leaves the completed
set untouched. -/
theorem c4_terminal_bookkeeping_witness :
    (update_task_status "t1" TaskStatus.failed
      { error_message := some "boom", completed_at := some 7 }
      inflightStore).1 = true ∧
    hget (update_task_status "t1" TaskStatus.failed
      { error_message := some "boom", completed_at := some 7 }
      inflightStore).2.processing_tasks "t1" = none ∧
    (update_task_status "t1" TaskStatus.failed
      { error_message := some "boom", completed_at := some 7 }
      inflightStore).2.db.queue_completed =
      inflightStore.db.queue_completed := by
  have H := c4_terminal_bookkeeping inflightStore "t1" TaskStatus.failed
    { error_message := some "boom", completed_at := some 7 }
    (sampleTask "t1" 0) (by decide)
  exact ⟨H.1, H.2.1, H.2.2.2.1 (Or.inl rfl)⟩
